import Mathlib

/-!
# Verification of `circman` (`src/circman/__main__.py`)

A shallow embedding of the command-line backup/deploy manager for
CircuitPython devices.  Filesystem and subprocess effects are made explicit:

* the contents of the backup directory are passed in as the list of file
  names it contains (`backupDirListing`);
* the output of an external mount-listing command is passed in as
  `Option (List String)`: `none` models the command being unavailable
  (`FileNotFoundError` raised by `check_output`), `some lines` models the
  `splitlines()` of its output;
* `logger.error` followed by `sys.exit(code)` is modelled by a result
  constructor carrying the message and the exit code;
* file extraction / archiving / copying are modelled as result values or
  trace events rather than performed.

Python-specific primitives (negative list indexing, `str.split()` with no
argument, slicing `l[-5:]`) are embedded as executable Lean functions.
-/

namespace Circman

/-- Python list indexing `l[i]` for `int` `i`, as used in
`archive_files[-archive]`: a negative index counts from the end
(`l[i] = l[len(l) + i]`), and an out-of-range index raises `IndexError`,
modelled by `none`. -/
def pyGetElem {α : Type} (l : List α) (i : Int) : Option α :=
  let j : Int := if i < 0 then (l.length : Int) + i else i
  if 0 ≤ j then l[j.toNat]? else none

/-- Byte-wise comparison `charListLe a b = true` iff `a` is lexicographically
at most `b`, mirroring how Python compares the strings that
`sorted(..., key=lambda x: str(x))` sorts by. -/
def charListLe : List Char → List Char → Bool
  | [], _ => true
  | _ :: _, [] => false
  | a :: as, b :: bs => if a < b then true else if b < a then false else charListLe as bs

/-- The ordering used by Python `sorted` on strings, as a binary relation. -/
def pyStrLe (a b : String) : Prop := charListLe a.data b.data = true

instance : DecidableRel pyStrLe :=
  fun a b => inferInstanceAs (Decidable (charListLe a.data b.data = true))

/-- Python `str.endswith(t)` / `bytes.endswith(t)`. -/
def pyEndsWith (s t : String) : Bool := t.data.isSuffixOf s.data

/-- `find_archive_files`: `sorted(BACKUP_DIR.glob("*.tar.bz2"), key=lambda x: str(x))`.
The input is the list of names of the files in `BACKUP_DIR`; the glob pattern
`*.tar.bz2` (non-recursive) keeps exactly the names ending in `.tar.bz2`, and
the result is sorted ascending by name.  (Sorting the full paths by `str`, as
the code does, orders them the same way as sorting the file names, since all
globbed paths share the directory prefix.) -/
def find_archive_files (backupDirListing : List String) : List String :=
  List.insertionSort pyStrLe (backupDirListing.filter fun n => pyEndsWith n ".tar.bz2")

/-- The archive name produced by `backup` for a timestamp string `ts` in the
fixed-width `%Y%m%d_%H%M%S` format: `shutil.make_archive` appends the
`.tar.bz2` extension to `f"archive-{now:%Y%m%d_%H%M%S}"`. -/
def archiveName (ts : String) : String := "archive-" ++ ts ++ ".tar.bz2"

/-- Outcome of the `restore` command body (after the device option has been
validated). `fatal msg code` models `logger.error(msg)` followed by
`sys.exit(code)`; `extracted f d` models `shutil.unpack_archive(f, d)` being
reached with archive file `f` and device directory `d`. -/
inductive RestoreResult where
  | fatal (message : String) (exitCode : Nat)
  | extracted (archive_file : String) (device : String)
  deriving DecidableEq

/-- The body of `restore` from the archive catalog on: empty-catalog check,
then `archive_files[-archive]` guarded by `except IndexError`, then
extraction onto the device. -/
def restoreOnCatalog (device : String) (archive : Int) (archive_files : List String) :
    RestoreResult :=
  if archive_files.isEmpty then .fatal "No backup found to restore." 1
  else
    match pyGetElem archive_files (-archive) with
    | none => .fatal "Backup not found." 1
    | some archive_file => .extracted archive_file device

/-- `restore(device, archive)`: builds the catalog with `find_archive_files`
and selects/extracts from it. -/
def restore (device : String) (archive : Int) (backupDirListing : List String) :
    RestoreResult :=
  restoreOnCatalog device archive (find_archive_files backupDirListing)

/-- Python slice `l[-n:]`: the last `min n (len l)` elements. -/
def pySliceLast {α : Type} (l : List α) (n : Nat) : List α := l.drop (l.length - n)

/-- One line printed by the `list` command (after the unconditional
`"Backups:"` header): its leading number `recent_files_count - index`, the
file's modification time (shown formatted by the code), and the file name. -/
structure ListLine where
  number : Nat
  mtime : Nat
  file_name : String
  deriving DecidableEq

/-- The body of the `list` command from the archive catalog on:
`recent_files = archive_files[-5:]`, then one line per entry of
`enumerate(recent_files)` numbered `recent_files_count - index`.  `mtimeOf`
supplies each file's `stat().st_mtime`. -/
def listOnCatalog (archive_files : List String) (mtimeOf : String → Nat) : List ListLine :=
  let recent_files := pySliceLast archive_files 5
  let recent_files_count := recent_files.length
  recent_files.enum.map fun p => ⟨recent_files_count - p.1, mtimeOf p.2, p.2⟩

/-- The `list` command: catalog from `find_archive_files`, then the numbered
lines (the `"Backups:"` header is logged unconditionally before them). -/
def list (backupDirListing : List String) (mtimeOf : String → Nat) : List ListLine :=
  listOnCatalog (find_archive_files backupDirListing) mtimeOf

/-- A side-effecting call made by `deploy`. -/
inductive Action where
  | backupArchive (device : String)
  | copyTree (source : String) (device : String)
  deriving DecidableEq

/-- Recognizer for backup events in a `deploy` trace. -/
def Action.isBackup : Action → Bool
  | .backupArchive _ => true
  | .copyTree _ _ => false

/-- A run of `deploy`: the ordered trace of side-effecting calls it made and
whether it completed normally. -/
structure DeployRun where
  trace : List Action
  ok : Bool
  deriving DecidableEq

/-- `deploy(device, source)`: `require_device(device)` exits with code 2 on a
falsy device (empty string) before any other action; otherwise
`backup(device)` runs, then `copy_tree(source, device, update=1)` is invoked.
`copyOk` models whether `copy_tree` succeeds; if it raises, the exception
propagates only after the copy step has started, so the trace is the same
either way. -/
def deploy (device source : String) (copyOk : Bool) : DeployRun :=
  if device = "" then { trace := [], ok := false }
  else { trace := [.backupArchive device, .copyTree source device], ok := copyOk }

/-- Python `bytes.split()` with no argument, on one line of mount output:
tokens are maximal runs of non-whitespace characters; empty tokens are never
produced.  `acc` is the current (reversed) token being read. -/
def pyTokensAux : List Char → List Char → List (List Char)
  | [], acc => if acc.isEmpty then [] else [acc.reverse]
  | c :: rest, acc =>
    if c.isWhitespace then
      if acc.isEmpty then pyTokensAux rest [] else acc.reverse :: pyTokensAux rest []
    else pyTokensAux rest (c :: acc)

/-- Python `line.split()`: whitespace-separated fields of `line`. -/
def pySplit (line : String) : List String := (pyTokensAux line.data []).map List.asString

/-- The list comprehension `[x.split()[2] for x in mount_output]`: the third
field of every line.  If any line has fewer than three fields, `x.split()[2]`
raises `IndexError` (modelled by `none`); the comprehension is evaluated in
full before any volumes are examined. -/
def mountedVolumes : List String → Option (List String)
  | [] => some []
  | x :: rest =>
    match (pySplit x)[2]? with
    | none => none
    | some v =>
      match mountedVolumes rest with
      | none => none
      | some vs => some (v :: vs)

/-- The inner loop of `find_device`: for each volume, if it ends with
`CIRCUITPY`, it becomes the current `device_dir` (a later match overrides an
earlier one). -/
def scanVolumes : List String → Option String → Option String
  | [], device_dir => device_dir
  | volume :: rest, device_dir =>
    scanVolumes rest (if pyEndsWith volume "CIRCUITPY" then some volume else device_dir)

/-- Result of one external command invocation: `none` models
`FileNotFoundError`, `some lines` the `splitlines()` of its output. -/
abbrev CmdResult := Option (List String)

/-- One iteration of the `for mount_command in ["mount", "/sbin/mount"]` loop:
`FileNotFoundError` is caught (`continue`), an `IndexError` from the field
comprehension is not and aborts `find_device` (`Except.error`). -/
def runMountCommand (result : CmdResult) (device_dir : Option String) :
    Except Unit (Option String) :=
  match result with
  | none => .ok device_dir
  | some mount_output =>
    match mountedVolumes mount_output with
    | none => .error ()
    | some vols => .ok (scanVolumes vols device_dir)

/-- Outcome of `find_device()`. -/
inductive DeviceResult where
  | found (path : String)
  | missing
  | indexError
  | unsupportedOS (osName : String)
  deriving DecidableEq

/-- `find_device()`: on `os.name == "posix"` it runs `mount` then
`/sbin/mount` (the loop has no `break`), scanning each available command's
output into `device_dir`; on any other `os.name` it raises
`NotImplementedError` before looking at any mount table.  `missing` models
the `None` return, `indexError` an uncaught `IndexError` from a mount line
with fewer than three fields, `unsupportedOS` the `NotImplementedError`. -/
def find_device (osName : String) (mountResult sbinMountResult : CmdResult) : DeviceResult :=
  if osName = "posix" then
    match runMountCommand mountResult none with
    | .error _ => .indexError
    | .ok d1 =>
      match runMountCommand sbinMountResult d1 with
      | .error _ => .indexError
      | .ok (some p) => .found p
      | .ok none => .missing
  else .unsupportedOS osName

/-! ## Lemmas about Python indexing -/

theorem pyGetElem_neg_nat {α : Type} (l : List α) (k : Nat) (hk : 1 ≤ k) :
    pyGetElem l (-(k : Int)) = if k ≤ l.length then l[l.length - k]? else none := by
  simp only [pyGetElem]
  have h1 : (-(k : Int) < 0) := by omega
  rw [if_pos h1]
  by_cases h2 : k ≤ l.length
  · rw [if_pos (by omega : (0 : Int) ≤ (l.length : Int) + -(k : Int)), if_pos h2]
    congr 1
    omega
  · rw [if_neg (by omega : ¬ (0 : Int) ≤ (l.length : Int) + -(k : Int)), if_neg h2]

theorem pyGetElem_zero {α : Type} (l : List α) : pyGetElem l 0 = l[0]? := by
  simp [pyGetElem]

/-! ## Claims about `restore` -/

/-- C1: for a non-empty archive catalog and a positive rank `k`, `restore`
with rank `k ≤` catalog length extracts the element at position
`length - k` of the ascending catalog (so rank 1 is the last, most recent
entry, rank 2 the second-to-last); with `k` strictly greater than the
catalog length it logs "Backup not found.", exits with code 1, and performs
no extraction. -/
theorem restore_rank_semantics (backupDirListing : List String) (device : String) (k : Nat)
    (hk : 1 ≤ k) (hne : find_archive_files backupDirListing ≠ []) :
    (k ≤ (find_archive_files backupDirListing).length →
      ∃ f, (find_archive_files backupDirListing)[(find_archive_files backupDirListing).length - k]?
          = some f ∧
        restore device (k : Int) backupDirListing = .extracted f device)
    ∧ ((find_archive_files backupDirListing).length < k →
      restore device (k : Int) backupDirListing = .fatal "Backup not found." 1) := by
  have hie : (find_archive_files backupDirListing).isEmpty = false := by
    simpa [List.isEmpty_iff] using hne
  have hpg := pyGetElem_neg_nat (find_archive_files backupDirListing) k hk
  constructor
  · intro hkl
    rw [if_pos hkl] at hpg
    have hlt : (find_archive_files backupDirListing).length - k
        < (find_archive_files backupDirListing).length := by
      have : 0 < (find_archive_files backupDirListing).length := List.length_pos.mpr hne
      omega
    refine ⟨(find_archive_files backupDirListing)[(find_archive_files backupDirListing).length - k],
      List.getElem?_eq_getElem hlt, ?_⟩
    simp [restore, restoreOnCatalog, hie, hpg, List.getElem?_eq_getElem hlt]
  · intro hkl
    rw [if_neg (by omega)] at hpg
    simp [restore, restoreOnCatalog, hie, hpg]

/-- Witness for C1, on the spec's own scenario: catalog
`[archive-20230224_034752.tar.bz2, archive-20230227_101709.tar.bz2]`;
rank 2 extracts the `20230224` file and rank 3 fails with
"Backup not found.". -/
theorem restore_rank_semantics_witness :
    (1 ≤ 2 ∧
      find_archive_files ["archive-20230227_101709.tar.bz2", "archive-20230224_034752.tar.bz2"]
        ≠ []) ∧
    restore "/media/u/CIRCUITPY" (2 : Int)
        ["archive-20230227_101709.tar.bz2", "archive-20230224_034752.tar.bz2"]
      = .extracted "archive-20230224_034752.tar.bz2" "/media/u/CIRCUITPY" ∧
    restore "/media/u/CIRCUITPY" (3 : Int)
        ["archive-20230227_101709.tar.bz2", "archive-20230224_034752.tar.bz2"]
      = .fatal "Backup not found." 1 := by
  refine ⟨⟨by decide, by decide⟩, ?_, ?_⟩
  · obtain ⟨f, hf, hr⟩ :=
      (restore_rank_semantics ["archive-20230227_101709.tar.bz2",
        "archive-20230224_034752.tar.bz2"] "/media/u/CIRCUITPY" 2 (by decide) (by decide)).1
        (by decide)
    have : f = "archive-20230224_034752.tar.bz2" := by
      have := hf.symm.trans (by decide :
        (find_archive_files ["archive-20230227_101709.tar.bz2",
          "archive-20230224_034752.tar.bz2"])[(find_archive_files ["archive-20230227_101709.tar.bz2",
          "archive-20230224_034752.tar.bz2"]).length - 2]?
        = some "archive-20230224_034752.tar.bz2")
      exact Option.some.inj this
    rw [this] at hr
    exact hr
  · exact
      (restore_rank_semantics ["archive-20230227_101709.tar.bz2",
        "archive-20230224_034752.tar.bz2"] "/media/u/CIRCUITPY" 3 (by decide) (by decide)).2
        (by decide)

/-- C6: with an empty archive catalog, `restore` logs
"No backup found to restore." and exits with code 1 for every rank the
command accepts, and never reaches the extraction call. -/
theorem restore_empty_catalog (backupDirListing : List String) (device : String) (archive : Int)
    (h : find_archive_files backupDirListing = []) :
    restore device archive backupDirListing = .fatal "No backup found to restore." 1 := by
  simp [restore, restoreOnCatalog, h]

/-- Witness for C6: a backup directory containing no `.tar.bz2` file, with
rank 37. -/
theorem restore_empty_catalog_witness :
    find_archive_files ["notes.txt"] = [] ∧
    restore "/media/u/CIRCUITPY" (37 : Int) ["notes.txt"]
      = .fatal "No backup found to restore." 1 :=
  ⟨by decide, restore_empty_catalog ["notes.txt"] "/media/u/CIRCUITPY" 37 (by decide)⟩

/-- C9: on a non-empty catalog, rank 0 is not rejected: `archive_files[-0]`
is `archive_files[0]`, so `restore` extracts the catalog's first (oldest)
archive and does not log "Backup not found.". -/
theorem restore_rank_zero (backupDirListing : List String) (device : String)
    (hne : find_archive_files backupDirListing ≠ []) :
    restore device 0 backupDirListing
      = .extracted ((find_archive_files backupDirListing).headD "") device ∧
    restore device 0 backupDirListing ≠ .fatal "Backup not found." 1 := by
  rcases hcc : find_archive_files backupDirListing with _ | ⟨a, t⟩
  · exact absurd hcc hne
  · constructor
    · simp [restore, restoreOnCatalog, hcc, pyGetElem_zero]
    · simp [restore, restoreOnCatalog, hcc, pyGetElem_zero]

/-- Witness for C9: a two-archive catalog; rank 0 extracts the oldest
(`20230224`) archive, not the most recent one. -/
theorem restore_rank_zero_witness :
    find_archive_files ["archive-20230227_101709.tar.bz2", "archive-20230224_034752.tar.bz2"]
      ≠ [] ∧
    restore "/media/u/CIRCUITPY" 0
        ["archive-20230227_101709.tar.bz2", "archive-20230224_034752.tar.bz2"]
      = .extracted "archive-20230224_034752.tar.bz2" "/media/u/CIRCUITPY" := by
  refine ⟨by decide, ?_⟩
  have h := (restore_rank_zero ["archive-20230227_101709.tar.bz2",
    "archive-20230224_034752.tar.bz2"] "/media/u/CIRCUITPY" (by decide)).1
  simpa using h

/-! ## The sort order used by `find_archive_files` -/

theorem charListLe_iff_not_lex :
    ∀ a b : List Char, charListLe a b = true ↔ ¬ List.Lex (· < ·) b a
  | [], b => by
    simp only [charListLe, true_iff]
    exact List.Lex.not_nil_right _ _
  | a :: as, [] =>
    iff_of_false (by simp [charListLe]) (not_not_intro List.Lex.nil)
  | a :: as, b :: bs => by
    by_cases h1 : a < b
    · refine iff_of_true (by simp [charListLe, h1]) ?_
      intro h
      cases h with
      | rel hr => exact absurd h1 (asymm hr)
      | cons h' => exact absurd h1 (lt_irrefl a)
    · by_cases h2 : b < a
      · refine iff_of_false (by simp [charListLe, h1, h2]) (not_not_intro (List.Lex.rel h2))
      · have hba : b = a := le_antisymm (not_lt.mp h1) (not_lt.mp h2)
        subst hba
        have hredl : charListLe (b :: as) (b :: bs) = charListLe as bs := by
          simp [charListLe]
        rw [hredl, List.Lex.cons_iff]
        exact charListLe_iff_not_lex as bs

theorem pyStrLe_iff_le {a b : String} : pyStrLe a b ↔ a ≤ b := by
  show charListLe a.data b.data = true ↔ a ≤ b
  rw [charListLe_iff_not_lex]
  constructor
  · intro h
    rw [← not_lt]
    intro hba
    exact h (String.lt_iff_toList_lt.mp hba)
  · intro h hba
    exact absurd (String.lt_iff_toList_lt.mpr hba) (not_lt.mpr h)

instance : IsTotal String pyStrLe :=
  ⟨fun a b => by simp only [pyStrLe_iff_le]; exact le_total a b⟩

instance : IsTrans String pyStrLe :=
  ⟨fun _ _ _ hab hbc =>
    pyStrLe_iff_le.mpr (le_trans (pyStrLe_iff_le.mp hab) (pyStrLe_iff_le.mp hbc))⟩

theorem lex_append_left {α : Type} {r : α → α → Prop} :
    ∀ (l a b : List α), List.Lex r a b → List.Lex r (l ++ a) (l ++ b)
  | [], _, _, h => h
  | _ :: t, a, b, h => List.Lex.cons (lex_append_left t a b h)

theorem lex_append_of_length_eq {α : Type} {r : α → α → Prop} {a b : List α}
    (h : List.Lex r a b) :
    a.length = b.length → ∀ e f : List α, List.Lex r (a ++ e) (b ++ f) := by
  induction h with
  | nil => intro hlen e f; simp at hlen
  | rel hr => intro _ e f; exact List.Lex.rel hr
  | cons h' ih => intro hlen e f; exact List.Lex.cons (ih (by simpa using hlen) e f)

/-- Fixed-width timestamps compare the same way before and after being
wrapped into an archive file name. -/
theorem archiveName_lt {t1 t2 : String} (hlen : t1.length = t2.length) (hlt : t1 < t2) :
    archiveName t1 < archiveName t2 := by
  rw [String.lt_iff_toList_lt] at hlt ⊢
  have h1 : (archiveName t1).toList = "archive-".data ++ (t1.data ++ ".tar.bz2".data) := by
    show (("archive-" ++ t1) ++ ".tar.bz2").data = _
    simp [String.data_append, List.append_assoc]
  have h2 : (archiveName t2).toList = "archive-".data ++ (t2.data ++ ".tar.bz2".data) := by
    show (("archive-" ++ t2) ++ ".tar.bz2").data = _
    simp [String.data_append, List.append_assoc]
  rw [h1, h2]
  exact lex_append_left _ _ _ (lex_append_of_length_eq hlt hlen _ _)

/-! ## Claim about the archive catalog (C5) -/

/-- C5: the archive catalog contains exactly the backup-directory entries
with the archive extension, is sorted ascending by file-name string, and in
particular lists the archive named with a smaller fixed-width timestamp
before the one named with a greater timestamp, wherever the two occur in
it. -/
theorem find_archive_files_spec (backupDirListing : List String) (t1 t2 : String)
    (hlen : t1.length = t2.length) (hlt : t1 < t2) :
    (find_archive_files backupDirListing).Sorted (· ≤ ·)
    ∧ (∀ n : String, n ∈ find_archive_files backupDirListing ↔
        n ∈ backupDirListing ∧ pyEndsWith n ".tar.bz2" = true)
    ∧ (∀ i j : Nat,
        (find_archive_files backupDirListing)[i]? = some (archiveName t1) →
        (find_archive_files backupDirListing)[j]? = some (archiveName t2) → i < j) := by
  have hsorted : (find_archive_files backupDirListing).Sorted (· ≤ ·) :=
    (List.sorted_insertionSort pyStrLe _).imp fun h => pyStrLe_iff_le.mp h
  refine ⟨hsorted, ?_, ?_⟩
  · intro n
    rw [find_archive_files, (List.perm_insertionSort pyStrLe _).mem_iff, List.mem_filter]
  · intro i j hi hj
    obtain ⟨hilt, hig⟩ := List.getElem?_eq_some.mp hi
    obtain ⟨hjlt, hjg⟩ := List.getElem?_eq_some.mp hj
    have hnames : archiveName t1 < archiveName t2 := archiveName_lt hlen hlt
    rcases Nat.lt_or_ge i j with h | h
    · exact h
    · exfalso
      rcases Nat.eq_or_lt_of_le h with h' | h'
      · subst h'
        rw [hig] at hjg
        exact absurd hjg (ne_of_lt hnames)
      · have := List.Sorted.rel_get_of_lt hsorted
          (a := ⟨j, hjlt⟩) (b := ⟨i, hilt⟩) h'
        simp only [List.get_eq_getElem, hig, hjg] at this
        exact absurd hnames (not_lt.mpr this)

/-- Witness for C5 on a concrete backup directory holding two archives and a
stray file: the `20230224` archive is listed at position 0, before the
`20230227` archive at position 1. -/
theorem find_archive_files_spec_witness :
    ("20230224_034752" : String).length = ("20230227_101709" : String).length
    ∧ ("20230224_034752" : String) < "20230227_101709"
    ∧ "archive-20230224_034752.tar.bz2" ∈
        find_archive_files ["misc.txt", "archive-20230227_101709.tar.bz2",
          "archive-20230224_034752.tar.bz2"]
    ∧ (0 : Nat) < 1 := by
  have h := find_archive_files_spec
    ["misc.txt", "archive-20230227_101709.tar.bz2", "archive-20230224_034752.tar.bz2"]
    "20230224_034752" "20230227_101709" (by decide) (String.lt_iff_toList_lt.mpr (by decide))
  refine ⟨by decide, String.lt_iff_toList_lt.mpr (by decide), ?_, ?_⟩
  · exact (h.2.1 _).mpr (by decide)
  · exact h.2.2 0 1 (by decide) (by decide)

/-! ## Claims about the `list` command (C8, C10) -/

theorem pySliceLast_length {α : Type} (l : List α) (n : Nat) :
    (pySliceLast l n).length = min l.length n := by
  simp only [pySliceLast, List.length_drop]
  omega

theorem listOnCatalog_getElem? (c : List String) (mtimeOf : String → Nat) (i : Nat) :
    (listOnCatalog c mtimeOf)[i]?
      = (pySliceLast c 5)[i]?.map
          (fun a => ⟨(pySliceLast c 5).length - i, mtimeOf a, a⟩) := by
  simp [listOnCatalog, List.getElem?_map, List.getElem?_enum, Option.map_map]
  rfl

/-- C8: the `list` command prints `min (catalog length) 5` entries, namely
the last (most recent) `min (catalog length) 5` archives of the ascending
catalog, numbered descending from `min (catalog length) 5` down to 1; each
line shows the file's modification time next to its name; on an empty
catalog nothing is printed beyond the unconditional header. -/
theorem list_output_spec (backupDirListing : List String) (mtimeOf : String → Nat) :
    (list backupDirListing mtimeOf).length
        = min (find_archive_files backupDirListing).length 5
    ∧ (list backupDirListing mtimeOf).map ListLine.file_name
        = (find_archive_files backupDirListing).drop
            ((find_archive_files backupDirListing).length - 5)
    ∧ (list backupDirListing mtimeOf).map ListLine.number
        = (List.range' 1 (min (find_archive_files backupDirListing).length 5)).reverse
    ∧ (∀ line ∈ list backupDirListing mtimeOf, line.mtime = mtimeOf line.file_name)
    ∧ (find_archive_files backupDirListing = [] → list backupDirListing mtimeOf = []) := by
  have hslice : (pySliceLast (find_archive_files backupDirListing) 5).length
      = min (find_archive_files backupDirListing).length 5 :=
    pySliceLast_length _ 5
  have hdrop : (find_archive_files backupDirListing).drop
      ((find_archive_files backupDirListing).length - 5)
      = pySliceLast (find_archive_files backupDirListing) 5 := rfl
  refine ⟨?_, ?_, ?_, ?_, ?_⟩
  · simp [list, listOnCatalog, hslice]
  · refine List.ext_getElem? fun i => ?_
    rw [hdrop]
    simp only [list, List.getElem?_map, listOnCatalog_getElem?, Option.map_map]
    rcases h : (pySliceLast (find_archive_files backupDirListing) 5)[i]? with _ | a
    · rfl
    · rfl
  · refine List.ext_getElem? fun i => ?_
    simp only [list, List.getElem?_map, listOnCatalog_getElem?, Option.map_map]
    by_cases hi : i < (pySliceLast (find_archive_files backupDirListing) 5).length
    · rw [List.getElem?_eq_getElem hi]
      have hirange : (min (find_archive_files backupDirListing).length 5) - 1 - i
          < min (find_archive_files backupDirListing).length 5 := by omega
      have hirev : i < (List.range' 1
          (min (find_archive_files backupDirListing).length 5)).length := by
        rw [List.length_range']
        omega
      rw [List.getElem?_reverse hirev, List.length_range',
        List.getElem?_range' _ _ hirange]
      simp only [Option.map_some', Function.comp_apply]
      congr 1
      omega
    · rw [List.getElem?_eq_none (by omega), List.getElem?_eq_none]
      · rfl
      · simp only [List.length_reverse, List.length_range']
        omega
  · intro line hline
    obtain ⟨p, _, rfl⟩ := List.mem_map.mp hline
    rfl
  · intro h
    simp [list, listOnCatalog, pySliceLast, h]

/-- Witness for C8: on an empty backup directory the `list` command prints
zero entries. -/
theorem list_output_spec_witness :
    find_archive_files [] = [] ∧ list [] (fun _ => 0) = [] :=
  ⟨by decide, (list_output_spec [] (fun _ => 0)).2.2.2.2 rfl⟩

/-- C10: for `1 ≤ n ≤ min 5 (catalog length)`, the entry the `list` command
numbers `n` carries exactly the archive file that `restore` with rank `n`
extracts, and no other displayed entry carries number `n` with a different
file. -/
theorem list_restore_numbering (backupDirListing : List String) (mtimeOf : String → Nat)
    (device : String) (n : Nat) (h1 : 1 ≤ n)
    (h2 : n ≤ min 5 (find_archive_files backupDirListing).length) :
    ∃ line, line ∈ list backupDirListing mtimeOf ∧ line.number = n ∧
      restore device (n : Int) backupDirListing = .extracted line.file_name device ∧
      ∀ l2 ∈ list backupDirListing mtimeOf, l2.number = n →
        l2.file_name = line.file_name := by
  have hslice : (pySliceLast (find_archive_files backupDirListing) 5).length
      = min (find_archive_files backupDirListing).length 5 :=
    pySliceLast_length _ 5
  have hcount : n ≤ (pySliceLast (find_archive_files backupDirListing) 5).length := by
    omega
  have hi : (pySliceLast (find_archive_files backupDirListing) 5).length - n
      < (pySliceLast (find_archive_files backupDirListing) 5).length := by
    omega
  have hrecent : (pySliceLast (find_archive_files backupDirListing) 5)[
      (pySliceLast (find_archive_files backupDirListing) 5).length - n]?
      = (find_archive_files backupDirListing)[
          (find_archive_files backupDirListing).length - n]? := by
    rw [pySliceLast, List.getElem?_drop, List.length_drop]
    congr 1
    omega
  have hmlt : (find_archive_files backupDirListing).length - n
      < (find_archive_files backupDirListing).length := by omega
  have hgot : (find_archive_files backupDirListing)[
      (find_archive_files backupDirListing).length - n]?
      = some ((find_archive_files backupDirListing).get
          ⟨(find_archive_files backupDirListing).length - n, hmlt⟩) :=
    List.getElem?_eq_getElem hmlt
  have hnumeq : (pySliceLast (find_archive_files backupDirListing) 5).length
      - ((pySliceLast (find_archive_files backupDirListing) 5).length - n) = n := by
    omega
  have hline : (list backupDirListing mtimeOf)[
      (pySliceLast (find_archive_files backupDirListing) 5).length - n]?
      = some ⟨n, mtimeOf ((find_archive_files backupDirListing).get
          ⟨(find_archive_files backupDirListing).length - n, hmlt⟩),
          (find_archive_files backupDirListing).get
          ⟨(find_archive_files backupDirListing).length - n, hmlt⟩⟩ := by
    rw [list, listOnCatalog_getElem?, hrecent, hgot]
    simp only [Option.map_some']
    rw [hnumeq]
  refine ⟨_, List.getElem?_mem hline, rfl, ?_, ?_⟩
  · have hne : find_archive_files backupDirListing ≠ [] := by
      intro hempty
      rw [hempty] at hmlt
      simp at hmlt
    have hie : (find_archive_files backupDirListing).isEmpty = false := by
      simpa [List.isEmpty_iff] using hne
    have hpg := pyGetElem_neg_nat (find_archive_files backupDirListing) n h1
    rw [if_pos (by omega)] at hpg
    simp [restore, restoreOnCatalog, hie, hpg, hgot]
  · intro l2 hl2 hnum
    obtain ⟨j, hj⟩ := List.getElem?_of_mem hl2
    rw [list, listOnCatalog_getElem?] at hj
    rcases hreq : (pySliceLast (find_archive_files backupDirListing) 5)[j]? with _ | a
    · rw [hreq] at hj
      exact absurd hj (by simp)
    · rw [hreq] at hj
      simp only [Option.map_some', Option.some.injEq] at hj
      have hjlt : j < (pySliceLast (find_archive_files backupDirListing) 5).length := by
        by_contra hge
        rw [List.getElem?_eq_none (by omega)] at hreq
        exact Option.noConfusion hreq
      have hnumj : l2.number
          = (pySliceLast (find_archive_files backupDirListing) 5).length - j := by
        rw [← hj]
      have hjeq : j = (pySliceLast (find_archive_files backupDirListing) 5).length - n := by
        omega
      subst hjeq
      rw [hrecent, hgot] at hreq
      have ha : a = (find_archive_files backupDirListing).get
          ⟨(find_archive_files backupDirListing).length - n, hmlt⟩ :=
        (Option.some.inj hreq).symm
      rw [← hj, ha]

/-- Witness for C10: a seven-archive catalog; the entry numbered 2 in the
`list` output names the archive that `restore` rank 2 extracts. -/
theorem list_restore_numbering_witness :
    (1 ≤ 2 ∧ 2 ≤ min 5 (find_archive_files ["a1.tar.bz2", "a2.tar.bz2", "a3.tar.bz2",
        "a4.tar.bz2", "a5.tar.bz2", "a6.tar.bz2", "a7.tar.bz2"]).length)
    ∧ ∃ line, line ∈ list ["a1.tar.bz2", "a2.tar.bz2", "a3.tar.bz2", "a4.tar.bz2",
        "a5.tar.bz2", "a6.tar.bz2", "a7.tar.bz2"] (fun _ => 0)
      ∧ line.number = 2
      ∧ restore "/media/u/CIRCUITPY" (2 : Int) ["a1.tar.bz2", "a2.tar.bz2", "a3.tar.bz2",
          "a4.tar.bz2", "a5.tar.bz2", "a6.tar.bz2", "a7.tar.bz2"]
          = .extracted line.file_name "/media/u/CIRCUITPY"
      ∧ ∀ l2 ∈ list ["a1.tar.bz2", "a2.tar.bz2", "a3.tar.bz2", "a4.tar.bz2",
          "a5.tar.bz2", "a6.tar.bz2", "a7.tar.bz2"] (fun _ => 0),
          l2.number = 2 → l2.file_name = line.file_name :=
  ⟨⟨by decide, by decide⟩,
    list_restore_numbering ["a1.tar.bz2", "a2.tar.bz2", "a3.tar.bz2", "a4.tar.bz2",
      "a5.tar.bz2", "a6.tar.bz2", "a7.tar.bz2"] (fun _ => 0) "/media/u/CIRCUITPY" 2
      (by decide) (by decide)⟩

/-! ## Claims about `find_device` (C2, C3, C4) -/

theorem scanVolumes_eq_none_iff :
    ∀ (vols : List String) (d : Option String),
      scanVolumes vols d = none ↔
        d = none ∧ ∀ v ∈ vols, pyEndsWith v "CIRCUITPY" = false
  | [], d => by simp [scanVolumes]
  | v :: t, d => by
    by_cases hv : pyEndsWith v "CIRCUITPY" = true
    · rw [scanVolumes, if_pos hv, scanVolumes_eq_none_iff t (some v)]
      simp [hv]
    · rw [scanVolumes, if_neg hv, scanVolumes_eq_none_iff t d]
      simp only [List.mem_cons, Bool.not_eq_true] at hv ⊢
      constructor
      · rintro ⟨hd, hall⟩
        exact ⟨hd, fun w hw => hw.elim (fun he => he ▸ hv) (hall w)⟩
      · rintro ⟨hd, hall⟩
        exact ⟨hd, fun w hw => hall w (Or.inr hw)⟩

theorem scanVolumes_isSome_iff (vols : List String) :
    (∃ p, scanVolumes vols none = some p) ↔
      ∃ v ∈ vols, pyEndsWith v "CIRCUITPY" = true := by
  rcases h : scanVolumes vols none with _ | p
  · rw [scanVolumes_eq_none_iff] at h
    simp only [true_and] at h
    constructor
    · rintro ⟨p, hp⟩
      exact Option.noConfusion hp
    · rintro ⟨v, hv, hmatch⟩
      rw [h v hv] at hmatch
      exact Bool.noConfusion hmatch
  · constructor
    · rintro -
      by_contra hno
      push_neg at hno
      have : scanVolumes vols none = none := by
        rw [scanVolumes_eq_none_iff]
        exact ⟨rfl, fun v hv => by simpa using hno v hv⟩
      rw [h] at this
      exact Option.noConfusion this
    · intro _
      exact ⟨p, rfl⟩

theorem mountedVolumes_of_wf :
    ∀ O : List String, (∀ line ∈ O, 3 ≤ (pySplit line).length) →
      mountedVolumes O = some (O.map fun l => ((pySplit l)[2]?).getD "")
  | [], _ => rfl
  | x :: t, hwf => by
    have hx : 2 < (pySplit x).length := by
      have := hwf x (by simp)
      omega
    rw [mountedVolumes, List.getElem?_eq_getElem hx,
      mountedVolumes_of_wf t fun l hl => hwf l (by simp [hl])]
    simp [List.getElem?_eq_getElem hx]

/-- C2: on a posix host, scanning a well-formed mount-table output (each
entry has a mount-point third field) yields a device path iff some entry's
mount point ends with `CIRCUITPY`; when no entry matches, `find_device`
returns `None` rather than raising.  (Here the fallback command is
unavailable, so the primary command's output is the whole scan.) -/
theorem find_device_scan_characterization (O : List String) (_hne : O ≠ [])
    (hwf : ∀ line ∈ O, 3 ≤ (pySplit line).length) :
    ((∃ p, find_device "posix" (some O) none = .found p) ↔
      ∃ line ∈ O, pyEndsWith (((pySplit line)[2]?).getD "") "CIRCUITPY" = true)
    ∧ ((∀ line ∈ O, pyEndsWith (((pySplit line)[2]?).getD "") "CIRCUITPY" = false) →
      find_device "posix" (some O) none = .missing) := by
  have hmv := mountedVolumes_of_wf O hwf
  constructor
  · rw [show (∃ p, find_device "posix" (some O) none = .found p) ↔
        ∃ p, scanVolumes (O.map fun l => ((pySplit l)[2]?).getD "") none = some p from ?_]
    · rw [scanVolumes_isSome_iff]
      constructor
      · rintro ⟨v, hv, hmatch⟩
        obtain ⟨line, hline, rfl⟩ := List.mem_map.mp hv
        exact ⟨line, hline, hmatch⟩
      · rintro ⟨line, hline, hmatch⟩
        exact ⟨_, List.mem_map.mpr ⟨line, hline, rfl⟩, hmatch⟩
    · simp only [find_device, runMountCommand, hmv, if_pos rfl]
      rcases h : scanVolumes (O.map fun l => ((pySplit l)[2]?).getD "") none with _ | p
      · simp [h]
      · simp only [h]
        constructor
        · rintro ⟨q, hq⟩
          exact ⟨q, by simpa using hq⟩
        · rintro ⟨q, hq⟩
          exact ⟨q, by simpa using hq⟩
  · intro hnone
    have hscan : scanVolumes (O.map fun l => ((pySplit l)[2]?).getD "") none = none := by
      rw [scanVolumes_eq_none_iff]
      refine ⟨rfl, fun v hv => ?_⟩
      obtain ⟨line, hline, rfl⟩ := List.mem_map.mp hv
      exact hnone line hline
    simp [find_device, runMountCommand, hmv, hscan]

/-- Witness for C2: a two-line mount table whose first entry's mount point
ends with `CIRCUITPY`; `find_device` returns a path. -/
theorem find_device_scan_characterization_witness :
    (["/dev/sda1 on /media/u/CIRCUITPY type vfat", "/dev/sdb1 on /data type ext4"]
      ≠ ([] : List String))
    ∧ (∀ line ∈ ["/dev/sda1 on /media/u/CIRCUITPY type vfat",
        "/dev/sdb1 on /data type ext4"], 3 ≤ (pySplit line).length)
    ∧ ∃ p, find_device "posix"
        (some ["/dev/sda1 on /media/u/CIRCUITPY type vfat", "/dev/sdb1 on /data type ext4"])
        none = .found p := by
  have h := find_device_scan_characterization
    ["/dev/sda1 on /media/u/CIRCUITPY type vfat", "/dev/sdb1 on /data type ext4"]
    (by decide) (by decide)
  exact ⟨by decide, by decide, h.1.mpr (by decide)⟩

theorem mountedVolumes_append (O1 O2 : List String) :
    mountedVolumes (O1 ++ O2)
      = match mountedVolumes O1, mountedVolumes O2 with
        | some v1, some v2 => some (v1 ++ v2)
        | _, _ => none := by
  induction O1 with
  | nil =>
    rcases h2 : mountedVolumes O2 with _ | v2 <;> simp [mountedVolumes, h2]
  | cons x t ih =>
    rcases hx : (pySplit x)[2]? with _ | v
    · simp [mountedVolumes, hx]
    · rcases h1 : mountedVolumes t with _ | v1 <;>
        rcases h2 : mountedVolumes O2 with _ | v2 <;>
        simp_all [mountedVolumes, hx]

theorem scanVolumes_append (v1 v2 : List String) (d : Option String) :
    scanVolumes (v1 ++ v2) d = scanVolumes v2 (scanVolumes v1 d) := by
  induction v1 generalizing d with
  | nil => rfl
  | cons v t ih => simp [scanVolumes, ih]

/-- Amended C3: the fallback command is not reserved for the case where the
primary is unavailable — the loop has no `break`, so both commands are
always attempted; a command raising file-not-found is skipped, and the
result is the final `device_dir` after scanning the primary's output and
then the fallback's (so a fallback match overrides a primary match).
Running both equals one scan of the concatenated outputs; when the primary
is unavailable, the fallback alone decides. -/
theorem find_device_runs_both (O1 O2 : List String) :
    find_device "posix" (some O1) (some O2)
        = find_device "posix" (some (O1 ++ O2)) none
    ∧ find_device "posix" none (some O2) = find_device "posix" (some O2) none := by
  constructor
  · rcases h1 : mountedVolumes O1 with _ | v1
    · simp [find_device, runMountCommand, mountedVolumes_append, h1]
    · rcases h2 : mountedVolumes O2 with _ | v2
      · simp [find_device, runMountCommand, mountedVolumes_append, h1, h2]
      · simp [find_device, runMountCommand, mountedVolumes_append, h1, h2,
          scanVolumes_append]
  · rcases h2 : mountedVolumes O2 with _ | v2 <;>
      simp [find_device, runMountCommand, h2]

/-- Counterexample to C3 as stated: both mount commands succeed, each
output containing a `CIRCUITPY` mount point; the primary alone would give
`/media/u/CIRCUITPY`, but with the fallback also present the fallback's
match `/backup/CIRCUITPY` overrides it, so the fallback was consulted and
did override the primary's successful scan. -/
theorem find_device_fallback_cex :
    find_device "posix" (some ["/dev/sda1 on /media/u/CIRCUITPY type vfat"])
        (some ["/dev/sdb1 on /backup/CIRCUITPY type vfat"]) = .found "/backup/CIRCUITPY"
    ∧ find_device "posix" (some ["/dev/sda1 on /media/u/CIRCUITPY type vfat"]) none
        = .found "/media/u/CIRCUITPY"
    ∧ DeviceResult.found "/backup/CIRCUITPY" ≠ DeviceResult.found "/media/u/CIRCUITPY" :=
  ⟨by decide, by decide, by decide⟩

/-- C4: on any `os.name` other than `"posix"`, `find_device` raises
`NotImplementedError` regardless of what the mount commands would return:
it neither returns a path nor returns `None`. -/
theorem find_device_non_posix (osName : String) (m s : CmdResult) (h : osName ≠ "posix") :
    find_device osName m s = .unsupportedOS osName
    ∧ (∀ p, find_device osName m s ≠ .found p)
    ∧ find_device osName m s ≠ .missing := by
  refine ⟨?_, ?_, ?_⟩ <;> simp [find_device, h]

/-- Witness for C4: `os.name = "nt"` with a matching mount table still
raises. -/
theorem find_device_non_posix_witness :
    ("nt" : String) ≠ "posix"
    ∧ find_device "nt" (some ["/dev/sda1 on /media/u/CIRCUITPY type vfat"]) none
        = .unsupportedOS "nt" :=
  ⟨by decide, (find_device_non_posix "nt"
    (some ["/dev/sda1 on /media/u/CIRCUITPY type vfat"]) none (by decide)).1⟩

/-! ## Claim about `deploy` (C7) -/

/-- C7: with a valid (non-empty) device path, `deploy` makes exactly one
backup invocation, it is the first action of the run, and the copy of the
source onto the device starts strictly after it; the trace of actions does
not depend on whether the copy succeeds. -/
theorem deploy_backup_before_copy (device source : String) (copyOk : Bool)
    (h : device ≠ "") :
    (deploy device source copyOk).trace.countP (fun a => a.isBackup) = 1
    ∧ (deploy device source copyOk).trace[0]? = some (.backupArchive device)
    ∧ (deploy device source copyOk).trace[1]? = some (.copyTree source device)
    ∧ (deploy device source true).trace = (deploy device source false).trace := by
  refine ⟨?_, ?_, ?_, ?_⟩ <;>
    simp [deploy, h, List.countP_cons, Action.isBackup]

/-- Witness for C7 at a concrete device and source, with the copy step
failing. -/
theorem deploy_backup_before_copy_witness :
    ("/media/u/CIRCUITPY" : String) ≠ ""
    ∧ ((deploy "/media/u/CIRCUITPY" "src" false).trace.countP (fun a => a.isBackup) = 1
      ∧ (deploy "/media/u/CIRCUITPY" "src" false).trace[0]?
          = some (.backupArchive "/media/u/CIRCUITPY")
      ∧ (deploy "/media/u/CIRCUITPY" "src" false).trace[1]?
          = some (.copyTree "src" "/media/u/CIRCUITPY")
      ∧ (deploy "/media/u/CIRCUITPY" "src" true).trace
          = (deploy "/media/u/CIRCUITPY" "src" false).trace) :=
  ⟨by decide, deploy_backup_before_copy "/media/u/CIRCUITPY" "src" false (by decide)⟩

end Circman
